import Mathlib

/-!
Verification development for the backtest engine in
`backend/app/services/backtest_service.py`.

The engine is embedded shallowly over exact rationals (`ℚ`): Python floats
become `ℚ`, bar indices become `ℤ` (matching the `-9999` sentinel for
`last_trade_bar`), and the per-bar loop of `BacktestEngine._execute_backtest`
becomes structural recursion over the bar list.  `run_backtest` coerces the
numeric columns with `fillna(0)` before the loop, so prices carry no NaN; the
`pd.isna` guards of the source therefore have no residual behaviour to model
on `ℚ`.  The `"normal"` / `"take_profit"` / ... reason strings of the source
are modelled by the closed enum `Reason`.
-/

namespace Backtest

/-- The `1e-9` epsilon used throughout `backtest_service.py`. -/
def eps : ℚ := 1 / 1000000000

/-- Closed enum for the reason strings used by `RiskManager.check_risk_override`
and `TradingDecisionEngine.should_trade`. -/
inductive Reason where
  | normal
  | take_profit
  | stop_loss
  | max_position_limit
  | position_change_too_small
  | cooldown_period
  | trade_amount_too_small
  | approved
deriving DecidableEq

/-- Buy/sell tag of a trade record (`side` field, `"buy"`/`"sell"` in the source). -/
inductive Side where
  | buy
  | sell
deriving DecidableEq

/-- State of `PositionManager` (cash / current_qty / avg_price / total_trades). -/
structure PositionManager where
  cash : ℚ
  current_qty : ℚ
  avg_price : ℚ
  total_trades : ℕ
deriving DecidableEq

/-- `PositionManager.__init__`: starts with `cash = initial_cash`, empty position. -/
def PositionManager.init (initial_cash : ℚ) : PositionManager :=
  { cash := initial_cash, current_qty := 0, avg_price := 0, total_trades := 0 }

/-- `PositionManager.get_nav`: `cash + current_qty * price`, falling back to
`cash` when the price is not positive (the NaN case is removed by `fillna(0)`
upstream and by working over `ℚ`). -/
def get_nav (pm : PositionManager) (current_price : ℚ) : ℚ :=
  if current_price ≤ 0 then pm.cash else pm.cash + pm.current_qty * current_price

/-- `PositionManager.get_current_position_ratio`: `qty*price / nav`, 0 when
`nav ≤ 0`.  (Renamed `position_fraction` here for tooling reasons only.) -/
def position_fraction (pm : PositionManager) (current_price : ℚ) : ℚ :=
  let nav := get_nav pm current_price
  if nav ≤ 0 then 0 else pm.current_qty * current_price / nav

/-- `PositionManager.can_afford_trade`. -/
def can_afford_trade (pm : PositionManager) (delta_qty price fee_rate : ℚ) : Bool :=
  if delta_qty ≤ 0 then
    decide (|delta_qty| ≤ pm.current_qty + eps)
  else
    decide (pm.cash ≥ delta_qty * price * (1 + fee_rate))

/-- `PositionManager.execute_trade`: returns the updated manager together with
`(fee, realized_pnl)`.  Mirrors the source branch-for-branch, including the
`< 1e-9` no-op guard and the full-close reset of `current_qty`/`avg_price`. -/
def execute_trade (pm : PositionManager) (delta_qty price fee_rate : ℚ) :
    PositionManager × ℚ × Option ℚ :=
  if |delta_qty| < eps then (pm, 0, none)
  else
    let amount := |delta_qty * price|
    let fee := amount * fee_rate
    if delta_qty > 0 then
      let total_cost := pm.avg_price * pm.current_qty + price * delta_qty
      let new_qty := pm.current_qty + delta_qty
      let new_avg := if new_qty > 0 then total_cost / new_qty else 0
      ({ cash := pm.cash - (amount + fee), current_qty := new_qty,
         avg_price := new_avg, total_trades := pm.total_trades + 1 }, fee, none)
    else
      let realized_pnl := (price - pm.avg_price) * |delta_qty| - fee
      let new_qty := pm.current_qty + delta_qty
      ({ cash := pm.cash + (amount - fee),
         current_qty := if new_qty < eps then 0 else new_qty,
         avg_price := if new_qty < eps then 0 else pm.avg_price,
         total_trades := pm.total_trades + 1 }, fee, some realized_pnl)

/-- Configuration of `RiskManager`. -/
structure RiskManager where
  stop_loss_pct : ℚ
  take_profit_pct : ℚ
  max_position : ℚ
deriving DecidableEq

/-- `RiskManager.check_risk_override`: `(is_override, reason, new_target)`.
The `pd.isna(current_price)` disjunct of the source guard is vacuous over `ℚ`. -/
def check_risk_override (rm : RiskManager) (current_qty avg_price current_price
    target_position : ℚ) : Bool × Reason × ℚ :=
  if current_qty ≤ 0 ∨ avg_price ≤ 0 then (false, .normal, target_position)
  else
    let profit_pct := (current_price - avg_price) / avg_price
    if profit_pct ≥ rm.take_profit_pct then
      (true, .take_profit, target_position * (1 / 2))
    else if profit_pct ≤ -rm.stop_loss_pct then
      (true, .stop_loss, 0)
    else if target_position > rm.max_position then
      (true, .max_position_limit, rm.max_position)
    else
      (false, .normal, target_position)

/-- State of `TradingDecisionEngine` (admission-policy configuration plus the
mutable `last_trade_bar`, initially `-9999`). -/
structure TradingDecisionEngine where
  min_trade_amount : ℚ
  min_trade_qty : ℚ
  min_position_change : ℚ
  lot_size : ℚ
  cooldown_bars : ℤ
  last_trade_bar : ℤ
deriving DecidableEq

/-- `TradingDecisionEngine.should_trade`.  The source takes the whole signal
and reads only its `target_position`; we pass the target directly. -/
def should_trade (de : TradingDecisionEngine) (target_position current_position
    current_price nav : ℚ) (bar_index : ℤ) : Bool × Reason :=
  let position_change := |target_position - current_position|
  if position_change < de.min_position_change then
    (false, .position_change_too_small)
  else if bar_index - de.last_trade_bar ≤ de.cooldown_bars then
    (false, .cooldown_period)
  else
    let target_value := nav * target_position
    let current_value := nav * current_position
    let trade_amount := |target_value - current_value|
    if trade_amount < de.min_trade_amount then
      (false, .trade_amount_too_small)
    else
      (true, .approved)

/-- `np.sign` on `ℚ`. -/
def npsign (x : ℚ) : ℚ := if x > 0 then 1 else if x < 0 then -1 else 0

/-- `TradingDecisionEngine.calculate_trade_quantity`: target quantity from the
NAV fraction, then lot-size rounding toward zero, then the minimum-quantity
zeroing.  `np.floor(|Δ|/lot)*lot*np.sign(Δ)` becomes `⌊|Δ|/lot⌋*lot*npsign Δ`. -/
def calculate_trade_quantity (de : TradingDecisionEngine) (target_position
    current_qty current_price nav : ℚ) : ℚ :=
  let target_value := nav * target_position
  let target_qty := if current_price > 0 then target_value / current_price else 0
  let delta_qty := target_qty - current_qty
  let d1 := if de.lot_size > 0 then
      (⌊|delta_qty| / de.lot_size⌋ : ℚ) * de.lot_size * npsign delta_qty
    else delta_qty
  if de.min_trade_qty > 0 ∧ |d1| < de.min_trade_qty then 0 else d1

/-- One OHLC bar row as consumed by the loop (timestamps as `ℕ`; the numeric
columns are coerced and `fillna(0)`-cleaned by `run_backtest` before the loop,
so every field is a plain rational here). -/
structure BarRow where
  datetime : ℕ
  high : ℚ
  low : ℚ
  close : ℚ
deriving DecidableEq

/-- True-range part of `SlippageCalculator.calculate_dynamic_slippage`:
`max(high-low, |high-prev_close|, |low-prev_close|)`, falling back to
`high-low` when there is no previous row. -/
def true_range (row : BarRow) (prev_row : Option BarRow) : ℚ :=
  let high_low := row.high - row.low
  match prev_row with
  | some p => max high_low (max |row.high - p.close| |row.low - p.close|)
  | none => high_low

/-- `SlippageCalculator.calculate_dynamic_slippage`:
`base * (1 + volatility_factor * 2)` with `volatility_factor = true_range/close`
when `close > 0`, else 0.  (The missing/NaN `high`/`low` guard of the source is
vacuous here: `BarRow` always carries cleaned rational columns.) -/
def calculate_dynamic_slippage (row : BarRow) (prev_row : Option BarRow)
    (base_slippage : ℚ) : ℚ :=
  let tr := true_range row prev_row
  let volatility_factor := if row.close > 0 then tr / row.close else 0
  base_slippage * (1 + volatility_factor * 2)

/-- A strategy signal (`StrategySignal` dataclass). -/
structure StrategySignal where
  datetime : ℕ
  target_position : ℚ
  signal_type : Reason
deriving DecidableEq

/-- The loop builds `signals_dict` keyed by timestamp (a later signal with the
same timestamp overwrites an earlier one) and looks the current bar up in it. -/
def signals_lookup (signals : List StrategySignal) (dt : ℕ) : Option StrategySignal :=
  signals.foldl (fun acc s => if s.datetime = dt then some s else acc) none

/-- Trade record (`TradeRecord` dataclass).  Bookkeeping-only fields of the
source record (`run_id`, `code`, `drawdown`, the duplicated average-price
snapshot, `close_price`) are omitted; no claim refers to them. -/
structure TradeRecord where
  datetime : ℕ
  side : Side
  trade_type : Reason
  price : ℚ
  qty : ℚ
  amount : ℚ
  fee : ℚ
  nav : ℚ
  realized_pnl : Option ℚ
  current_qty : ℚ
  current_cash : ℚ
deriving DecidableEq

/-- Engine parameters relevant to the simulation loop (`DEFAULT_BACKTEST_PARAMS`
keys; `logging_enabled` has no simulation effect and is omitted). -/
structure EngineParams where
  initial_capital : ℚ
  fee_rate : ℚ
  slippage : ℚ
  min_trade_amount : ℚ
  min_trade_qty : ℚ
  min_position_change : ℚ
  lot_size : ℚ
  cooldown_bars : ℤ
  stop_loss_pct : ℚ
  take_profit_pct : ℚ
  max_position : ℚ
deriving DecidableEq

/-- `DEFAULT_BACKTEST_PARAMS` from the source. -/
def DEFAULT_BACKTEST_PARAMS : EngineParams :=
  { initial_capital := 1000000, fee_rate := 1 / 1000, slippage := 2 / 10000,
    min_trade_amount := 5000, min_trade_qty := 1 / 100,
    min_position_change := 5 / 100, lot_size := 1 / 10000, cooldown_bars := 0,
    stop_loss_pct := 25 / 100, take_profit_pct := 15 / 100, max_position := 1 }

/-- Mutable state threaded through `BacktestEngine._execute_backtest`'s loop. -/
structure BacktestState where
  pm : PositionManager
  de : TradingDecisionEngine
  trades : List TradeRecord
  nav_list : List ℚ
  prev_row : Option BarRow
deriving DecidableEq

/-- Loop state at entry (`_initialize_components` plus the local lists). -/
def init_state (p : EngineParams) : BacktestState :=
  { pm := PositionManager.init p.initial_capital,
    de := { min_trade_amount := p.min_trade_amount, min_trade_qty := p.min_trade_qty,
            min_position_change := p.min_position_change, lot_size := p.lot_size,
            cooldown_bars := p.cooldown_bars, last_trade_bar := -9999 },
    trades := [], nav_list := [], prev_row := none }

/-- The `RiskManager` built by `_initialize_components` from the merged params. -/
def risk_of (p : EngineParams) : RiskManager :=
  { stop_loss_pct := p.stop_loss_pct, take_profit_pct := p.take_profit_pct,
    max_position := p.max_position }

/-- Sizing / funds-check / execution tail of one loop iteration (source lines:
slippage, execution price, `can_afford_trade` with the buy-side clamp to
`cash/(exec_price*(1+fee_rate))`, `execute_trade`, `update_last_trade_bar`,
trade-record append).  Does not touch `nav_list` or `prev_row`. -/
def settle_trade (p : EngineParams) (st : BacktestState) (bar_index : ℤ)
    (row : BarRow) (final_signal : StrategySignal) (delta0 : ℚ) : BacktestState :=
  let price := row.close
  let slip := calculate_dynamic_slippage row st.prev_row p.slippage
  let exec_price := if delta0 > 0 then price * (1 + slip) else price * (1 - slip)
  let afford := can_afford_trade st.pm delta0 exec_price p.fee_rate
  let delta1 := if afford = false ∧ delta0 > 0 then
      min delta0 (st.pm.cash / (exec_price * (1 + p.fee_rate)))
    else delta0
  if afford = false ∧ delta0 > 0 ∧ delta1 < eps then st
  else
    let res := execute_trade st.pm delta1 exec_price p.fee_rate
    let pm2 := res.1
    let trade : TradeRecord :=
      { datetime := row.datetime,
        side := if delta1 > 0 then Side.buy else Side.sell,
        trade_type := final_signal.signal_type,
        price := exec_price, qty := delta1, amount := |delta1 * exec_price|,
        fee := res.2.1, nav := get_nav pm2 price, realized_pnl := res.2.2,
        current_qty := pm2.current_qty, current_cash := pm2.cash }
    { st with
      pm := pm2,
      de := { st.de with last_trade_bar := bar_index },
      trades := st.trades ++ [trade] }

/-- Risk-check step of one loop iteration (source: the `check_risk_override`
call and the construction of the overridden `final_signal` when
`is_override` is set). -/
def risk_final_signal (p : EngineParams) (pm : PositionManager) (price : ℚ)
    (current_signal : StrategySignal) : StrategySignal :=
  let r := check_risk_override (risk_of p) pm.current_qty pm.avg_price
    price current_signal.target_position
  if r.1 then
    { datetime := current_signal.datetime, target_position := r.2.2,
      signal_type := r.2.1 }
  else current_signal

/-- Signal-handling part of one loop iteration: risk check, admission decision,
sizing, then `settle_trade`.  Returns `st` unchanged on every skip path.
Does not touch `nav_list` or `prev_row`. -/
def process_signal (p : EngineParams) (st : BacktestState) (bar_index : ℤ)
    (row : BarRow) (current_signal : StrategySignal) : BacktestState :=
  let price := row.close
  let nav := get_nav st.pm price
  let current_position := position_fraction st.pm price
  let final_signal := risk_final_signal p st.pm price current_signal
  let dec := should_trade st.de final_signal.target_position current_position
    price nav bar_index
  if dec.1 = false then st
  else
    let delta0 := calculate_trade_quantity st.de final_signal.target_position
      st.pm.current_qty price nav
    if |delta0| < eps then st
    else settle_trade p st bar_index row final_signal delta0

/-- One full iteration of the bar loop: append the pre-trade NAV, handle the
bar's signal (if any), finally set `prev_row := row`. -/
def process_bar (p : EngineParams) (signals : List StrategySignal)
    (st : BacktestState) (bar_index : ℤ) (row : BarRow) : BacktestState :=
  let nav := get_nav st.pm row.close
  let st1 := { st with nav_list := st.nav_list ++ [nav] }
  let st2 := match signals_lookup signals row.datetime with
    | none => st1
    | some s => process_signal p st1 bar_index row s
  { st2 with prev_row := some row }

/-- The bar loop from state `st`, numbering bars from `bar_index` upward. -/
def run_from (p : EngineParams) (signals : List StrategySignal) :
    BacktestState → ℤ → List BarRow → BacktestState
  | st, _, [] => st
  | st, i, row :: rest => run_from p signals (process_bar p signals st i row) (i + 1) rest

/-- The whole loop of `_execute_backtest` over a bar list. -/
def run_loop (p : EngineParams) (signals : List StrategySignal)
    (bars : List BarRow) : BacktestState :=
  run_from p signals (init_state p) 0 bars

/-- All intermediate states of the loop (state before bar 0, before bar 1, ...,
final state). -/
def run_states (p : EngineParams) (signals : List StrategySignal) :
    BacktestState → ℤ → List BarRow → List BacktestState
  | st, _, [] => [st]
  | st, i, row :: rest =>
      st :: run_states p signals (process_bar p signals st i row) (i + 1) rest

/-- `pandas.Series.pct_change` on a clean (NaN-free) series:
`(x_i - x_(i-1)) / x_(i-1)` for `i ≥ 1`; with every entry nonzero nothing is
dropped by `dropna`. -/
def pct_change (xs : List ℚ) : List ℚ :=
  List.zipWith (fun a b => (b - a) / a) xs xs.tail

/-- Mean of a list (`Series.mean`). -/
def list_mean (xs : List ℚ) : ℚ := xs.sum / xs.length

/-- Sample variance with `ddof = 1`, the square of `pandas.Series.std`.  For a
singleton the `ℚ` division by `0` yields `0`, which fails the source's
`std > 0` guard exactly as pandas' NaN does. -/
def sample_var (xs : List ℚ) : ℚ :=
  (xs.map (fun x => (x - list_mean xs) ^ 2)).sum / ((xs.length : ℚ) - 1)

/-- Population variance (`ddof = 0`); used only to state the spec's
"zero variance" side of C8. -/
def pop_var (xs : List ℚ) : ℚ :=
  (xs.map (fun x => (x - list_mean xs) ^ 2)).sum / (xs.length : ℚ)

/-- Running maximum continuing from `m` (`Series.expanding().max()`). -/
def expanding_max_from (m : ℚ) : List ℚ → List ℚ
  | [] => []
  | x :: xs => max m x :: expanding_max_from (max m x) xs

/-- `Series.expanding().max()`. -/
def expanding_max : List ℚ → List ℚ
  | [] => []
  | x :: xs => x :: expanding_max_from x xs

/-- Minimum of a list (`Series.min`), with the head as the seed. -/
def list_min (xs : List ℚ) : ℚ := xs.foldl min (xs.headD 0)

/-- The metrics dict of `MetricsCalculator.calculate_performance_metrics`.
Conditionally-present keys become `Option` fields.  The source stores
`sharpe = sqrt(252) * returns.mean() / returns.std()`, an irrational number;
the `sharpe` field holds the exact pair `(returns.mean(), returns.std()^2)`
that determines it, and is `some` precisely when the source stores the key.
`profit_factor` (which can be `float('inf')`) is omitted; no claim uses it. -/
structure Metrics where
  final_capital : Option ℚ
  final_return : Option ℚ
  max_drawdown : Option ℚ
  sharpe : Option (ℚ × ℚ)
  trade_count : Option ℕ
  total_fee : Option ℚ
  total_profit : Option ℚ
  win_rate : Option ℚ
deriving DecidableEq

/-- The `{}` returned when the NAV series has fewer than 2 points. -/
def empty_metrics : Metrics :=
  { final_capital := none, final_return := none, max_drawdown := none,
    sharpe := none, trade_count := none, total_fee := none,
    total_profit := none, win_rate := none }

/-- `MetricsCalculator.calculate_performance_metrics`. -/
def calculate_performance_metrics (nav_list : List ℚ) (initial_capital : ℚ)
    (trades : List TradeRecord) : Metrics :=
  if nav_list.length < 2 then empty_metrics
  else
    let final_capital := nav_list.getLastD 0
    let drawdown := List.zipWith (fun nav m => (nav - m) / m) nav_list (expanding_max nav_list)
    let returns := pct_change nav_list
    let realized_pnls := trades.filterMap (fun t => t.realized_pnl)
    { final_capital := some final_capital,
      final_return := some (final_capital / initial_capital - 1),
      max_drawdown := some (list_min drawdown),
      sharpe := if returns.length > 1 ∧ 0 < sample_var returns then
          some (list_mean returns, sample_var returns)
        else none,
      trade_count := if trades = [] then none else some trades.length,
      total_fee := if trades = [] then none else some (trades.map (fun t => t.fee)).sum,
      total_profit := if realized_pnls = [] then none else some realized_pnls.sum,
      win_rate := if realized_pnls = [] then none
        else some (((realized_pnls.filter (fun p => 0 < p)).length : ℚ) / realized_pnls.length) }

/-- Observable outcome of `BacktestEngine.run_backtest`.  The source returns a
plain dict; its early return on an empty frame is
`{"run_id", "nav": [], "signals": [], "metrics": {}}` with **no**
failure/error key, and the normal return likewise carries no such key.  The
`failure` field models an explicit failure marker on the result; since the
source never attaches one, it is `none` on every path. -/
structure RunResult where
  nav_points : List ℚ
  executed_trades : List TradeRecord
  metric_values : Metrics
  failure : Option Reason
deriving DecidableEq

/-- `BacktestEngine.run_backtest` after strategy evaluation: the signal list
stands in for the strategy collaborator's output.  `df.empty` becomes
`bars.isEmpty`, returning the early empty result; otherwise the bar loop runs
and the metrics are computed from its NAV list and trade log. -/
def run_backtest (p : EngineParams) (signals : List StrategySignal)
    (bars : List BarRow) : RunResult :=
  if bars.isEmpty then
    { nav_points := [], executed_trades := [], metric_values := empty_metrics,
      failure := none }
  else
    let st := run_loop p signals bars
    { nav_points := st.nav_list, executed_trades := st.trades,
      metric_values := calculate_performance_metrics st.nav_list p.initial_capital st.trades,
      failure := none }

/-! ## Concrete scenario shared by C4 and C7: one bar, close 100, target 0.5,
initial capital 100000, fee 0.001, slippage 0 (other parameters default). -/

/-- C7's engine parameters: defaults except `initial_capital = 100000` and
`slippage = 0` (`fee_rate` is already 0.001 by default). -/
def single_bar_params : EngineParams :=
  { DEFAULT_BACKTEST_PARAMS with initial_capital := 100000, slippage := 0 }

/-- The single bar with close 100. -/
def single_bar : BarRow := { datetime := 0, high := 100, low := 100, close := 100 }

/-- The single signal requesting target position 0.5. -/
def single_bar_signal : StrategySignal :=
  { datetime := 0, target_position := 1 / 2, signal_type := .normal }

/-- The loop state after running the single-bar scenario. -/
def single_bar_run : BacktestState :=
  run_loop single_bar_params [single_bar_signal] [single_bar]

/-! ## C2: the `max_position_limit` branch of `check_risk_override` -/

/-- C2 counterexample: with no open position (`current_qty = 0`,
`avg_price = 0`) and a requested target above `max_position`, the default-
configured `check_risk_override` returns `(false, normal, target)` — the guard
`current_qty <= 0 or avg_price <= 0` exits before the max-position clamp, so
no `max_position_limit` override fires, contrary to the claim's
"this includes the case quantity == 0". -/
theorem C2_counterexample :
    check_risk_override (risk_of DEFAULT_BACKTEST_PARAMS) 0 0 100 2 =
      (false, Reason.normal, 2) ∧
    (risk_of DEFAULT_BACKTEST_PARAMS).max_position < 2 ∧
    (check_risk_override (risk_of DEFAULT_BACKTEST_PARAMS) 0 0 100 2).2.1 ≠
      Reason.max_position_limit := by
  have h : check_risk_override (risk_of DEFAULT_BACKTEST_PARAMS) 0 0 100 2 =
      (false, Reason.normal, 2) := by
    norm_num [check_risk_override, risk_of, DEFAULT_BACKTEST_PARAMS]
  refine ⟨h, by norm_num [risk_of, DEFAULT_BACKTEST_PARAMS], ?_⟩
  rw [h]
  decide

/-- C2 (amended): whenever an open position exists (`quantity > 0`,
`avg_cost > 0`), the take-profit and stop-loss thresholds do not fire, and the
requested target exceeds `max_position`, `check_risk_override` overrides to
`max_position_limit` with final target `max_position`.  (The amendment drops
the `quantity == 0` case: the source returns `normal` there.) -/
theorem C2_max_position_clamp (rm : RiskManager) (q a pr t : ℚ)
    (hq : 0 < q) (ha : 0 < a)
    (htp : (pr - a) / a < rm.take_profit_pct)
    (hsl : -rm.stop_loss_pct < (pr - a) / a)
    (hmax : rm.max_position < t) :
    check_risk_override rm q a pr t = (true, Reason.max_position_limit, rm.max_position) := by
  have h0 : ¬ (q ≤ 0 ∨ a ≤ 0) := by push_neg; exact ⟨hq, ha⟩
  simp only [check_risk_override, if_neg h0, if_neg (not_le.mpr htp),
    if_neg (not_le.mpr hsl), if_pos hmax]

/-- C2 witness: a concrete instantiation of `C2_max_position_clamp` (flat
position bought at 100, price still 100, default thresholds, target 2). -/
theorem C2_max_position_clamp_witness :
    check_risk_override (risk_of DEFAULT_BACKTEST_PARAMS) 1 100 100 2 =
      (true, Reason.max_position_limit, (risk_of DEFAULT_BACKTEST_PARAMS).max_position) :=
  C2_max_position_clamp (risk_of DEFAULT_BACKTEST_PARAMS) 1 100 100 2
    (by norm_num) (by norm_num)
    (by norm_num [risk_of, DEFAULT_BACKTEST_PARAMS])
    (by norm_num [risk_of, DEFAULT_BACKTEST_PARAMS])
    (by norm_num [risk_of, DEFAULT_BACKTEST_PARAMS])

/-! ## C6: sell-side semantics of `execute_trade` -/

/-- C6: for every executed sell (`delta_qty < 0`, `|delta_qty| ≥ 1e-9`),
`execute_trade` charges `fee = |delta_qty*price| * fee_rate`, reports
`realized_pnl = (price - avg_cost_before)*|delta_qty| - fee`, credits cash with
`|delta_qty*price| - fee`, decreases the quantity by `|delta_qty|`, and resets
both quantity and average cost to exactly 0 when the resulting quantity falls
below 1e-9 (otherwise the average cost is unchanged). -/
theorem C6_sell_semantics (pm : PositionManager) (delta_qty price fee_rate : ℚ)
    (hneg : delta_qty < 0) (hmag : eps ≤ |delta_qty|) :
    execute_trade pm delta_qty price fee_rate =
      ({ cash := pm.cash + (|delta_qty * price| - |delta_qty * price| * fee_rate),
         current_qty := if pm.current_qty + delta_qty < eps then 0
           else pm.current_qty + delta_qty,
         avg_price := if pm.current_qty + delta_qty < eps then 0 else pm.avg_price,
         total_trades := pm.total_trades + 1 },
       |delta_qty * price| * fee_rate,
       some ((price - pm.avg_price) * |delta_qty| - |delta_qty * price| * fee_rate)) := by
  simp only [execute_trade, if_neg (not_lt.mpr hmag), if_neg (not_lt.mpr hneg.le)]

/-- C6 witness: selling 4 units at 60 from a position of 10 units with average
cost 50 at fee rate 0.1 — fee 24, realized pnl 16, cash 1000 → 1216, quantity
10 → 6 with average cost kept at 50. -/
theorem C6_sell_semantics_witness :
    execute_trade { cash := 1000, current_qty := 10, avg_price := 50, total_trades := 0 }
        (-4) 60 (1 / 10) =
      ({ cash := 1216, current_qty := 6, avg_price := 50, total_trades := 1 }, 24, some 16) := by
  rw [C6_sell_semantics _ _ _ _ (by norm_num) (by rw [abs_of_nonpos] <;> norm_num [eps])]
  norm_num [eps, abs_of_nonpos]

/-! ## C9: monotonicity of the dynamic slippage in the true range -/

/-- C9: for a positive base slippage, two bars with the same positive close
price and the same previous bar, the bar with the strictly larger true range
gets the strictly larger `dynamic_slippage = base * (1 + (true_range/close)*2)`. -/
theorem C9_slippage_monotone (row1 row2 : BarRow) (prev : Option BarRow)
    (base_slippage : ℚ) (hbase : 0 < base_slippage)
    (hclose : row1.close = row2.close) (hpos : 0 < row1.close)
    (htr : true_range row2 prev < true_range row1 prev) :
    calculate_dynamic_slippage row2 prev base_slippage <
      calculate_dynamic_slippage row1 prev base_slippage := by
  simp only [calculate_dynamic_slippage, ← hclose, if_pos hpos]
  have hdiv : true_range row2 prev / row1.close < true_range row1 prev / row1.close :=
    (div_lt_div_iff_of_pos_right hpos).mpr htr
  nlinarith [hdiv, hbase]

/-- C9 witness: close 100 in both bars, high-low range 20 versus 10, no
previous bar, base slippage 0.001. -/
theorem C9_slippage_monotone_witness :
    calculate_dynamic_slippage { datetime := 0, high := 105, low := 95, close := 100 }
        none (1 / 1000) <
      calculate_dynamic_slippage { datetime := 0, high := 110, low := 90, close := 100 }
        none (1 / 1000) :=
  C9_slippage_monotone
    { datetime := 0, high := 110, low := 90, close := 100 }
    { datetime := 0, high := 105, low := 95, close := 100 }
    none (1 / 1000) (by norm_num) rfl (by norm_num) (by norm_num [true_range])

/-! ## C10: oversells are clipped to an empty position but fully credited -/

/-- C10: an oversell — a sell whose magnitude `can_afford_trade` rejects
(`|delta_qty| > quantity + 1e-9`) but which `execute_trade` is handed anyway —
leaves `current_qty = 0` and `avg_price = 0` (the full-close reset clamps the
would-be negative quantity), while cash is credited with the full
`|delta_qty * price| - fee` as if the excess quantity had been held. -/
theorem C10_oversell_clamped (pm : PositionManager) (delta_qty price fee_rate : ℚ)
    (hq : 0 ≤ pm.current_qty) (hneg : delta_qty < 0)
    (hafford : can_afford_trade pm delta_qty price fee_rate = false) :
    (execute_trade pm delta_qty price fee_rate).1.current_qty = 0 ∧
    (execute_trade pm delta_qty price fee_rate).1.avg_price = 0 ∧
    (execute_trade pm delta_qty price fee_rate).1.cash =
      pm.cash + (|delta_qty * price| - |delta_qty * price| * fee_rate) := by
  rw [can_afford_trade, if_pos hneg.le] at hafford
  have hover : pm.current_qty + eps < |delta_qty| := by
    have := of_decide_eq_false hafford
    exact not_le.mp this
  have heps : 0 < eps := by norm_num [eps]
  have hmag : eps ≤ |delta_qty| := le_of_lt (lt_of_le_of_lt (by linarith) hover)
  have habs : |delta_qty| = -delta_qty := abs_of_neg hneg
  have hreset : pm.current_qty + delta_qty < eps := by
    rw [habs] at hover; linarith
  rw [C6_sell_semantics pm delta_qty price fee_rate hneg hmag]
  simp only [if_pos hreset]
  exact ⟨trivial, trivial, trivial⟩

/-- C10 witness: holding 1 unit, selling 2 at price 10 with fee rate 0.1 —
`can_afford_trade` rejects, yet `execute_trade` clamps the position to 0/0 and
credits the full 20 - 2 = 18. -/
theorem C10_oversell_clamped_witness :
    can_afford_trade { cash := 100, current_qty := 1, avg_price := 50, total_trades := 0 }
        (-2) 10 (1 / 10) = false ∧
    (execute_trade { cash := 100, current_qty := 1, avg_price := 50, total_trades := 0 }
        (-2) 10 (1 / 10)).1.current_qty = 0 ∧
    (execute_trade { cash := 100, current_qty := 1, avg_price := 50, total_trades := 0 }
        (-2) 10 (1 / 10)).1.avg_price = 0 ∧
    (execute_trade { cash := 100, current_qty := 1, avg_price := 50, total_trades := 0 }
        (-2) 10 (1 / 10)).1.cash = 100 + (|(-2 : ℚ) * 10| - |(-2 : ℚ) * 10| * (1 / 10)) := by
  have haff : can_afford_trade
      { cash := 100, current_qty := 1, avg_price := 50, total_trades := 0 }
      (-2) 10 (1 / 10) = false := by
    norm_num [can_afford_trade, eps, abs_of_nonpos]
  exact ⟨haff, C10_oversell_clamped _ _ _ _ (by norm_num) (by norm_num) haff⟩

/-! ## C7: the end-to-end single-bar scenario -/

/-- C7: with initial capital 100000, fee rate 0.001, zero base slippage, a
single bar with close 100 and one signal with target position 0.5, the run
executes exactly one buy of 500 units at execution price 100 paying fee 50,
leaving cash 49950, quantity 500 and NAV 99950. -/
theorem C7_single_bar_scenario :
    single_bar_run.trades =
      [{ datetime := 0, side := Side.buy, trade_type := Reason.normal,
         price := 100, qty := 500, amount := 50000, fee := 50, nav := 99950,
         realized_pnl := none, current_qty := 500, current_cash := 49950 }] ∧
    single_bar_run.pm.cash = 49950 ∧
    single_bar_run.pm.current_qty = 500 ∧
    get_nav single_bar_run.pm 100 = 99950 := by
  norm_num [single_bar_run, single_bar_params, single_bar, single_bar_signal,
    run_loop, run_from, process_bar, process_signal, settle_trade, init_state,
    signals_lookup, DEFAULT_BACKTEST_PARAMS, get_nav, position_fraction,
    can_afford_trade, execute_trade, check_risk_override, risk_of,
    risk_final_signal, should_trade,
    calculate_trade_quantity, npsign, true_range, calculate_dynamic_slippage,
    eps, PositionManager.init, List.foldl, abs_of_nonneg, abs_of_nonpos]

/-! ## C4: when the NAV series point for a bar is recorded -/

/-- `process_signal` never touches the NAV list: the loop appends the NAV
before the signal is handled. -/
theorem process_signal_nav_list (p : EngineParams) (st : BacktestState)
    (i : ℤ) (row : BarRow) (s : StrategySignal) :
    (process_signal p st i row s).nav_list = st.nav_list := by
  simp only [process_signal, settle_trade]
  repeat' split
  all_goals rfl

/-- C4 counterexample: in the single-bar scenario a buy with fee 50 executes
on bar 0, yet the NAV series records 100000 — the pre-trade NAV — while the
post-bar `cash + quantity * close` is 99950.  The recorded point does not
reflect the trade executed on its own bar. -/
theorem C4_counterexample :
    single_bar_run.nav_list = [100000] ∧
    single_bar_run.trades.length = 1 ∧
    single_bar_run.pm.cash + single_bar_run.pm.current_qty * single_bar.close = 99950 ∧
    (100000 : ℚ) ≠ 99950 := by
  norm_num [single_bar_run, single_bar_params, single_bar, single_bar_signal,
    run_loop, run_from, process_bar, process_signal, settle_trade, init_state,
    signals_lookup, DEFAULT_BACKTEST_PARAMS, get_nav, position_fraction,
    can_afford_trade, execute_trade, check_risk_override, risk_of,
    risk_final_signal, should_trade,
    calculate_trade_quantity, npsign, true_range, calculate_dynamic_slippage,
    eps, PositionManager.init, List.foldl, abs_of_nonneg, abs_of_nonpos]

/-- C4 (amended): the NAV point appended for bar `i` is
`cash + quantity * close_i` of the state *entering* the bar — it reflects all
trades up to and including bar `i-1`, but never the trade executed on bar `i`
itself. -/
theorem C4_nav_recorded_pre_trade (p : EngineParams) (signals : List StrategySignal)
    (st : BacktestState) (i : ℤ) (row : BarRow) :
    (process_bar p signals st i row).nav_list =
      st.nav_list ++ [get_nav st.pm row.close] := by
  simp only [process_bar]
  cases h : signals_lookup signals row.datetime with
  | none => rfl
  | some s => simpa using process_signal_nav_list p _ i row s

/-! ## C5: empty input is not surfaced as a failure -/

/-- C5 counterexample: on an empty bar sequence `run_backtest` neither raises
nor marks the result: it returns the plain empty result (empty NAV series,
no trades, empty metrics) whose failure marker is `none`, indistinguishable
by any marker from a successful run. -/
theorem C5_counterexample :
    run_backtest DEFAULT_BACKTEST_PARAMS [] [] =
      { nav_points := [], executed_trades := [], metric_values := empty_metrics,
        failure := none } ∧
    (run_backtest DEFAULT_BACKTEST_PARAMS [] []).failure = none :=
  ⟨rfl, rfl⟩

/-- C5 (amended): for every parameter set and signal list, running on an empty
bar sequence returns immediately with the normal-shaped empty result — empty
NAV series, empty trade log, empty metrics map — and no explicit failure
marker.  Callers cannot distinguish this degenerate completion from success
by a marker on the result. -/
theorem C5_empty_input_normal_result (p : EngineParams) (signals : List StrategySignal) :
    run_backtest p signals [] =
      { nav_points := [], executed_trades := [], metric_values := empty_metrics,
        failure := none } :=
  rfl

/-! ## C1: risk overrides are NOT routed around the admission policy

The loop passes the risk-overridden signal straight into
`TradingDecisionEngine.should_trade`; nothing skips the admission gating for
risk-driven rebalances.  The scenario below instantiates the claim's own
numbers: avg_cost 100, price 126, take_profit_pct 0.25, requested target 1.0,
min_position_change 0.5. -/

/-- Parameters for the C1 scenario: defaults except `initial_capital = 100000`,
`fee_rate = 0`, `slippage = 0`, `min_position_change = 0.5`,
`take_profit_pct = 0.25` (and `stop_loss_pct = 0.25`). -/
def c1_params : EngineParams :=
  { DEFAULT_BACKTEST_PARAMS with
    initial_capital := 100000, fee_rate := 0, slippage := 0,
    min_position_change := 1 / 2, take_profit_pct := 1 / 4,
    stop_loss_pct := 1 / 4 }

/-- C1 scenario bar 0: buys in at close 100. -/
def c1_bar0 : BarRow := { datetime := 0, high := 100, low := 100, close := 100 }

/-- C1 scenario bar 1: price 126, i.e. +26% over the average cost of 100. -/
def c1_bar1 : BarRow := { datetime := 1, high := 126, low := 126, close := 126 }

/-- C1 scenario signals: target 0.9 on bar 0 (establishes the position),
target 1.0 on bar 1 (the take-profit override halves it to 0.5). -/
def c1_signals : List StrategySignal :=
  [{ datetime := 0, target_position := 9 / 10, signal_type := .normal },
   { datetime := 1, target_position := 1, signal_type := .normal }]

/-- Loop state entering bar 1: cash 10000, quantity 900 at average cost 100. -/
def c1_state1 : BacktestState := run_loop c1_params c1_signals [c1_bar0]

/-- Final loop state of the C1 scenario. -/
def c1_final : BacktestState := run_loop c1_params c1_signals [c1_bar0, c1_bar1]

/-- C1 counterexample: entering bar 1 the position is 900 units at average cost
100 and the take-profit override fires (final target 0.5), yet `should_trade`
rejects the overridden rebalance with `position_change_too_small`, so the full
run executes only bar 0's trade and the position is NOT halved: risk-driven
trades are not exempt from the admission policy's suppression. -/
theorem C1_counterexample :
    c1_state1.pm.current_qty = 900 ∧
    c1_state1.pm.avg_price = 100 ∧
    risk_final_signal c1_params c1_state1.pm c1_bar1.close
        { datetime := 1, target_position := 1, signal_type := .normal } =
      { datetime := 1, target_position := 1 / 2, signal_type := .take_profit } ∧
    should_trade c1_state1.de (1 / 2) (position_fraction c1_state1.pm c1_bar1.close)
        c1_bar1.close (get_nav c1_state1.pm c1_bar1.close) 1 =
      (false, Reason.position_change_too_small) ∧
    c1_final.trades.length = 1 ∧
    c1_final.pm.current_qty = 900 := by
  norm_num [c1_state1, c1_final, c1_params, c1_bar0, c1_bar1, c1_signals,
    run_loop, run_from, process_bar, process_signal, settle_trade, init_state,
    signals_lookup, DEFAULT_BACKTEST_PARAMS, get_nav, position_fraction,
    can_afford_trade, execute_trade, check_risk_override, risk_of,
    risk_final_signal, should_trade, calculate_trade_quantity, npsign,
    true_range, calculate_dynamic_slippage, eps, PositionManager.init,
    List.foldl, abs_of_nonneg, abs_of_nonpos]

/-- C1 (amended): the risk-adjusted signal is passed through `should_trade`
like any other signal; whenever the admission policy rejects it — including
with `position_change_too_small`, `cooldown_period` or
`trade_amount_too_small` — the bar executes no trade and the loop state is
unchanged, even when the RiskPolicy fired an override.  (The claim's bypass
does not exist in the source; in its own scenario the take-profit override is
vetoed and the position is not halved.) -/
theorem C1_risk_override_gated (p : EngineParams) (st : BacktestState) (i : ℤ)
    (row : BarRow) (s : StrategySignal)
    (h : (should_trade st.de (risk_final_signal p st.pm row.close s).target_position
        (position_fraction st.pm row.close) row.close (get_nav st.pm row.close) i).1
      = false) :
    process_signal p st i row s = st := by
  simp only [process_signal, h, if_true]

/-- C1 witness: instantiating `C1_risk_override_gated` at the C1 scenario's
bar 1 — the take-profit-overridden signal is rejected and the state is
returned unchanged. -/
theorem C1_risk_override_gated_witness :
    process_signal c1_params c1_state1 1 c1_bar1
      { datetime := 1, target_position := 1, signal_type := .normal } = c1_state1 :=
  C1_risk_override_gated c1_params c1_state1 1 c1_bar1
    { datetime := 1, target_position := 1, signal_type := .normal }
    (by norm_num [c1_state1, c1_params, c1_bar0, c1_bar1, c1_signals,
      run_loop, run_from, process_bar, process_signal, settle_trade, init_state,
      signals_lookup, DEFAULT_BACKTEST_PARAMS, get_nav, position_fraction,
      can_afford_trade, execute_trade, check_risk_override, risk_of,
      risk_final_signal, should_trade, calculate_trade_quantity, npsign,
      true_range, calculate_dynamic_slippage, eps, PositionManager.init,
      List.foldl, abs_of_nonneg, abs_of_nonpos])

/-! ## C8: the sharpe guard -/

/-- Sum of squared deviations is nonnegative. -/
theorem sq_dev_sum_nonneg (xs : List ℚ) :
    0 ≤ (xs.map (fun x => (x - list_mean xs) ^ 2)).sum := by
  apply List.sum_nonneg
  intro y hy
  simp only [List.mem_map] at hy
  obtain ⟨a, _, rfl⟩ := hy
  positivity

/-- For a list of length at least 2, the sample variance is positive exactly
when the population variance is nonzero. -/
theorem sample_var_pos_iff_pop_var_ne (xs : List ℚ) (h : 2 ≤ xs.length) :
    (0 < sample_var xs ↔ pop_var xs ≠ 0) := by
  unfold sample_var pop_var
  have hSnn := sq_dev_sum_nonneg xs
  have h1 : (0 : ℚ) < (xs.length : ℚ) - 1 := by
    have h2q : (2 : ℚ) ≤ (xs.length : ℚ) := by exact_mod_cast h
    linarith
  have h2 : (0 : ℚ) < (xs.length : ℚ) := by linarith
  constructor
  · intro hv
    have hS0 : 0 < (xs.map (fun x => (x - list_mean xs) ^ 2)).sum := by
      by_contra hle
      push_neg at hle
      have hz : (xs.map (fun x => (x - list_mean xs) ^ 2)).sum = 0 := le_antisymm hle hSnn
      rw [hz] at hv
      simp at hv
    exact ne_of_gt (div_pos hS0 h2)
  · intro hv
    have hS0 : 0 < (xs.map (fun x => (x - list_mean xs) ^ 2)).sum := by
      rcases lt_or_eq_of_le hSnn with hlt | heq
      · exact hlt
      · exact absurd (by rw [← heq]; simp) hv
    exact div_pos hS0 h1

/-- The population variance of a one-element list is 0. -/
theorem pop_var_length_one (xs : List ℚ) (h : xs.length = 1) : pop_var xs = 0 := by
  cases xs with
  | nil => simp at h
  | cons a t =>
    cases t with
    | nil => norm_num [pop_var, list_mean]
    | cons b t2 => simp at h

/-- `pct_change` has one element fewer than its input. -/
theorem pct_change_length (xs : List ℚ) : (pct_change xs).length = xs.length - 1 := by
  simp [pct_change]

/-- C8: for NAV series of positive points, the metrics map carries the sharpe
entry precisely when the series has at least two points and the percentage
changes have nonzero variance; whenever present its value is exactly the mean
and sample variance of `pct_change(nav)` (the data behind
`sqrt(252) * returns.mean() / returns.std()`). -/
theorem C8_sharpe_guard (nav_list : List ℚ) (initial_capital : ℚ)
    (trades : List TradeRecord) (hpos : ∀ x ∈ nav_list, 0 < x) :
    ((calculate_performance_metrics nav_list initial_capital trades).sharpe.isSome = true ↔
      2 ≤ nav_list.length ∧ pop_var (pct_change nav_list) ≠ 0) ∧
    ((calculate_performance_metrics nav_list initial_capital trades).sharpe = none ∨
      (calculate_performance_metrics nav_list initial_capital trades).sharpe =
        some (list_mean (pct_change nav_list), sample_var (pct_change nav_list))) := by
  by_cases hlen : nav_list.length < 2
  · constructor
    · simp only [calculate_performance_metrics, if_pos hlen, empty_metrics,
        Option.isSome_none, Bool.false_eq_true, false_iff, not_and]
      intro h2
      omega
    · left
      simp [calculate_performance_metrics, if_pos hlen, empty_metrics]
  · have hlen2 : 2 ≤ nav_list.length := not_lt.mp hlen
    have hrs : (pct_change nav_list).length = nav_list.length - 1 := pct_change_length nav_list
    have hsh : (calculate_performance_metrics nav_list initial_capital trades).sharpe =
        (if (pct_change nav_list).length > 1 ∧ 0 < sample_var (pct_change nav_list) then
          some (list_mean (pct_change nav_list), sample_var (pct_change nav_list))
        else none) := by
      simp only [calculate_performance_metrics, if_neg hlen]
    rw [hsh]
    by_cases hcond : (pct_change nav_list).length > 1 ∧ 0 < sample_var (pct_change nav_list)
    · rw [if_pos hcond]
      refine ⟨?_, Or.inr rfl⟩
      simp only [Option.isSome_some, true_iff]
      exact ⟨hlen2, (sample_var_pos_iff_pop_var_ne _ hcond.1).mp hcond.2⟩
    · rw [if_neg hcond]
      refine ⟨?_, Or.inl rfl⟩
      simp only [Option.isSome_none, Bool.false_eq_true, false_iff, not_and]
      intro _ hpop
      push_neg at hcond
      by_cases hone : (pct_change nav_list).length ≤ 1
      · have h1 : (pct_change nav_list).length = 1 := by omega
        exact hpop (pop_var_length_one _ h1)
      · have h2 : 2 ≤ (pct_change nav_list).length := by omega
        have hvle := hcond (by omega)
        have hvpos := (sample_var_pos_iff_pop_var_ne _ h2).mpr hpop
        linarith

/-- C8 witness: the three-point NAV series `[100, 110, 100]` has positive
entries and percentage changes of nonzero variance; `C8_sharpe_guard` applies. -/
theorem C8_sharpe_guard_witness :
    (∀ x ∈ [(100 : ℚ), 110, 100], 0 < x) ∧
    (((calculate_performance_metrics [(100 : ℚ), 110, 100] 100000 []).sharpe.isSome = true ↔
      2 ≤ ([(100 : ℚ), 110, 100] : List ℚ).length ∧
        pop_var (pct_change [(100 : ℚ), 110, 100]) ≠ 0) ∧
    ((calculate_performance_metrics [(100 : ℚ), 110, 100] 100000 []).sharpe = none ∨
      (calculate_performance_metrics [(100 : ℚ), 110, 100] 100000 []).sharpe =
        some (list_mean (pct_change [(100 : ℚ), 110, 100]),
          sample_var (pct_change [(100 : ℚ), 110, 100])))) :=
  ⟨by norm_num, C8_sharpe_guard [(100 : ℚ), 110, 100] 100000 [] (by norm_num)⟩

/-! ## C3: cash and quantity never go negative -/

/-- Auxiliary induction for `signals_lookup`: a hit is either the seed or a
member of the list. -/
theorem signals_lookup_mem_aux (dt : ℕ) (s : StrategySignal) :
    ∀ (l : List StrategySignal) (acc : Option StrategySignal),
      l.foldl (fun acc t => if t.datetime = dt then some t else acc) acc = some s →
      acc = some s ∨ s ∈ l := by
  intro l
  induction l with
  | nil => exact fun acc h => Or.inl h
  | cons x xs ih =>
    intro acc h
    rcases ih _ h with h1 | h1
    · by_cases hx : x.datetime = dt
      · have hxs : x = s := by
          have h2 : some x = some s := by simpa [hx] using h1
          injection h2
        exact Or.inr (hxs ▸ List.mem_cons_self x xs)
      · have h2 : acc = some s := by simpa [hx] using h1
        exact Or.inl h2
    · exact Or.inr (List.mem_cons_of_mem _ h1)

/-- A signal found by `signals_lookup` belongs to the signal list. -/
theorem signals_lookup_mem (signals : List StrategySignal) (dt : ℕ)
    (s : StrategySignal) (h : signals_lookup signals dt = some s) : s ∈ signals := by
  rcases signals_lookup_mem_aux dt s signals none h with h1 | h1
  · simp at h1
  · exact h1

/-- NAV is nonnegative when cash and quantity are. -/
theorem get_nav_nonneg (pm : PositionManager) (price : ℚ)
    (hc : 0 ≤ pm.cash) (hq : 0 ≤ pm.current_qty) : 0 ≤ get_nav pm price := by
  rw [get_nav]
  split
  · exact hc
  · next h => exact add_nonneg hc (mul_nonneg hq (le_of_lt (not_le.mp h)))

/-- The risk-overridden target stays nonnegative (for a nonnegative
`max_position`). -/
theorem check_risk_override_target_nonneg (rm : RiskManager) (q a pr t : ℚ)
    (ht : 0 ≤ t) (hm : 0 ≤ rm.max_position) :
    0 ≤ (check_risk_override rm q a pr t).2.2 := by
  simp only [check_risk_override]
  split
  · exact ht
  · split
    · show (0 : ℚ) ≤ t * (1 / 2)
      linarith
    · split
      · show (0 : ℚ) ≤ (0 : ℚ)
        exact le_refl 0
      · split
        · exact hm
        · exact ht

/-- The post-risk-check signal keeps a nonnegative target. -/
theorem risk_final_signal_target_nonneg (p : EngineParams) (pm : PositionManager)
    (price : ℚ) (s : StrategySignal) (ht : 0 ≤ s.target_position)
    (hm : 0 ≤ p.max_position) :
    0 ≤ (risk_final_signal p pm price s).target_position := by
  simp only [risk_final_signal]
  split
  · show 0 ≤ (check_risk_override (risk_of p) pm.current_qty pm.avg_price price
      s.target_position).2.2
    exact check_risk_override_target_nonneg _ _ _ _ _ ht hm
  · exact ht

/-- Lower bound for the lot-size rounding: it never falls below `min x 0`. -/
theorem lot_round_lower (x lot : ℚ) (hlot : 0 < lot) :
    min x 0 ≤ (⌊|x| / lot⌋ : ℚ) * lot * npsign x := by
  rcases lt_trichotomy x 0 with hx | hx | hx
  · have habs : |x| = -x := abs_of_neg hx
    rw [npsign, if_neg (by linarith), if_pos hx, habs]
    have hfl : (⌊-x / lot⌋ : ℚ) ≤ -x / lot := Int.floor_le _
    have h1 : (⌊-x / lot⌋ : ℚ) * lot ≤ -x := by
      have h2 := mul_le_mul_of_nonneg_right hfl hlot.le
      rwa [div_mul_cancel₀ _ (ne_of_gt hlot)] at h2
    have hmin : min x 0 ≤ x := min_le_left _ _
    linarith
  · subst hx
    simp [npsign]
  · rw [npsign, if_pos hx]
    have hfl : (0 : ℚ) ≤ (⌊|x| / lot⌋ : ℚ) := by
      exact_mod_cast Int.floor_nonneg.mpr (div_nonneg (abs_nonneg x) hlot.le)
    have h0 : min x 0 ≤ 0 := min_le_right _ _
    nlinarith

/-- Upper bound for the lot-size rounding: it never exceeds `max x 0`. -/
theorem lot_round_upper (x lot : ℚ) (hlot : 0 < lot) :
    (⌊|x| / lot⌋ : ℚ) * lot * npsign x ≤ max x 0 := by
  rcases lt_trichotomy x 0 with hx | hx | hx
  · rw [npsign, if_neg (by linarith), if_pos hx]
    have hfl : (0 : ℚ) ≤ (⌊|x| / lot⌋ : ℚ) := by
      exact_mod_cast Int.floor_nonneg.mpr (div_nonneg (abs_nonneg x) hlot.le)
    have h0 : (0 : ℚ) ≤ max x 0 := le_max_right _ _
    nlinarith
  · subst hx
    simp [npsign]
  · have habs : |x| = x := abs_of_pos hx
    rw [npsign, if_pos hx, habs]
    have hfl : (⌊x / lot⌋ : ℚ) ≤ x / lot := Int.floor_le _
    have h1 : (⌊x / lot⌋ : ℚ) * lot ≤ x := by
      have h2 := mul_le_mul_of_nonneg_right hfl hlot.le
      rwa [div_mul_cancel₀ _ (ne_of_gt hlot)] at h2
    have hmax : x ≤ max x 0 := le_max_left _ _
    linarith

/-- The computed rebalance never sells more than the held quantity:
`delta_qty ≥ -current_qty` whenever the target and NAV are nonnegative. -/
theorem calculate_trade_quantity_ge_neg_qty (de : TradingDecisionEngine)
    (t q pr nav : ℚ) (ht : 0 ≤ t) (hnav : 0 ≤ nav) (hq : 0 ≤ q) :
    -q ≤ calculate_trade_quantity de t q pr nav := by
  simp only [calculate_trade_quantity]
  set tq := (if pr > 0 then nav * t / pr else 0) with htqd
  have htq : 0 ≤ tq := by
    rw [htqd]
    split
    · next h => positivity
    · exact le_refl 0
  split
  · next hlot =>
    have hlow := lot_round_lower (tq - q) de.lot_size hlot
    have hmin : -q ≤ min (tq - q) 0 := le_min (by linarith) (by linarith)
    split
    · linarith
    · linarith
  · split
    · linarith
    · linarith

/-- A strictly positive computed rebalance forces a strictly positive price. -/
theorem calculate_trade_quantity_pos_price (de : TradingDecisionEngine)
    (t q pr nav : ℚ) (hq : 0 ≤ q)
    (h : 0 < calculate_trade_quantity de t q pr nav) : 0 < pr := by
  by_contra hpr
  push_neg at hpr
  have hub : calculate_trade_quantity de t q pr nav ≤ 0 := by
    simp only [calculate_trade_quantity, if_neg (not_lt.mpr hpr)]
    split
    · next hlot =>
      have hup := lot_round_upper ((0 : ℚ) - q) de.lot_size hlot
      have hmax : max ((0 : ℚ) - q) 0 = 0 := max_eq_right (by linarith)
      split
      · exact le_refl 0
      · linarith
    · split
      · exact le_refl 0
      · linarith
  linarith

/-- The true range is nonnegative for any bar with `low ≤ high`. -/
theorem true_range_nonneg (row : BarRow) (prev_row : Option BarRow)
    (hrow : row.low ≤ row.high) : 0 ≤ true_range row prev_row := by
  cases prev_row with
  | none =>
    simp only [true_range]
    exact sub_nonneg.mpr hrow
  | some pb =>
    simp only [true_range]
    calc (0 : ℚ) ≤ |row.high - pb.close| := abs_nonneg _
    _ ≤ max |row.high - pb.close| |row.low - pb.close| := le_max_left _ _
    _ ≤ max (row.high - row.low) (max |row.high - pb.close| |row.low - pb.close|) :=
        le_max_right _ _

/-- The dynamic slippage is nonnegative for a nonnegative base slippage. -/
theorem calculate_dynamic_slippage_nonneg (row : BarRow) (prev_row : Option BarRow)
    (base_slippage : ℚ) (hb : 0 ≤ base_slippage) (hrow : row.low ≤ row.high) :
    0 ≤ calculate_dynamic_slippage row prev_row base_slippage := by
  simp only [calculate_dynamic_slippage]
  have hvf : 0 ≤ (if row.close > 0 then true_range row prev_row / row.close else 0) := by
    split
    · next h => exact div_nonneg (true_range_nonneg row prev_row hrow) h.le
    · exact le_refl 0
  nlinarith

/-- `execute_trade` keeps cash and quantity nonnegative, provided buys are
funded (`cash ≥ delta*price*(1+fee)` at a positive price) and sells never
exceed the held quantity. -/
theorem execute_trade_cash_qty (pm : PositionManager) (delta price fee : ℚ)
    (hf0 : 0 ≤ fee) (hf1 : fee ≤ 1)
    (hcash : 0 ≤ pm.cash) (hq : 0 ≤ pm.current_qty)
    (hd : -pm.current_qty ≤ delta)
    (hbuy : 0 < delta → pm.cash ≥ delta * price * (1 + fee) ∧ 0 < price) :
    0 ≤ (execute_trade pm delta price fee).1.cash ∧
    0 ≤ (execute_trade pm delta price fee).1.current_qty := by
  simp only [execute_trade]
  split
  · exact ⟨hcash, hq⟩
  · split
    · next hpos =>
      obtain ⟨hc, hp⟩ := hbuy hpos
      constructor
      · show 0 ≤ pm.cash - (|delta * price| + |delta * price| * fee)
        have habs : |delta * price| = delta * price := abs_of_nonneg (mul_nonneg hpos.le hp.le)
        rw [habs]
        nlinarith
      · show 0 ≤ pm.current_qty + delta
        linarith
    · next hnpos =>
      constructor
      · show 0 ≤ pm.cash + (|delta * price| - |delta * price| * fee)
        have h1 : 0 ≤ |delta * price| := abs_nonneg _
        nlinarith
      · show 0 ≤ (if pm.current_qty + delta < eps then 0 else pm.current_qty + delta)
        split
        · exact le_refl 0
        · linarith

/-- The sizing / funds-check / execution tail keeps cash and quantity
nonnegative. -/
theorem settle_trade_inv (p : EngineParams) (st : BacktestState) (i : ℤ)
    (row : BarRow) (fs : StrategySignal) (delta0 : ℚ)
    (hf0 : 0 ≤ p.fee_rate) (hf1 : p.fee_rate ≤ 1) (hsl : 0 ≤ p.slippage)
    (hrow : row.low ≤ row.high)
    (hcash : 0 ≤ st.pm.cash) (hq : 0 ≤ st.pm.current_qty)
    (hdge : -st.pm.current_qty ≤ delta0)
    (hdpos : 0 < delta0 → 0 < row.close) :
    0 ≤ (settle_trade p st i row fs delta0).pm.cash ∧
    0 ≤ (settle_trade p st i row fs delta0).pm.current_qty := by
  have hslip : 0 ≤ calculate_dynamic_slippage row st.prev_row p.slippage :=
    calculate_dynamic_slippage_nonneg row st.prev_row p.slippage hsl hrow
  simp only [settle_trade]
  set slip := calculate_dynamic_slippage row st.prev_row p.slippage with hslipd
  set ep := (if delta0 > 0 then row.close * (1 + slip) else row.close * (1 - slip)) with hepd
  set aff := can_afford_trade st.pm delta0 ep p.fee_rate with haffd
  set d1 := (if aff = false ∧ delta0 > 0 then
      min delta0 (st.pm.cash / (ep * (1 + p.fee_rate))) else delta0) with hd1d
  split
  · exact ⟨hcash, hq⟩
  · next hskip =>
    have heps : (0 : ℚ) < eps := by norm_num [eps]
    have hA : -st.pm.current_qty ≤ d1 := by
      by_cases hc : aff = false ∧ delta0 > 0
      · have hge : eps ≤ d1 := not_lt.mp (fun hlt => hskip ⟨hc.1, hc.2, hlt⟩)
        linarith
      · have he : d1 = delta0 := by rw [hd1d, if_neg hc]
        rw [he]
        exact hdge
    have hB : 0 < d1 → st.pm.cash ≥ d1 * ep * (1 + p.fee_rate) ∧ 0 < ep := by
      intro hD
      have hd0 : 0 < delta0 := by
        by_contra hnd
        have he : d1 = delta0 := by
          rw [hd1d, if_neg]
          exact fun hcc => hnd hcc.2
        rw [he] at hD
        exact hnd hD
      have hp : 0 < row.close := hdpos hd0
      have hep : ep = row.close * (1 + slip) := by rw [hepd, if_pos hd0]
      have heppos : 0 < ep := by
        rw [hep]
        nlinarith
      refine ⟨?_, heppos⟩
      by_cases hc : aff = false
      · have he : d1 = min delta0 (st.pm.cash / (ep * (1 + p.fee_rate))) := by
          rw [hd1d, if_pos ⟨hc, hd0⟩]
        have hposM : 0 < ep * (1 + p.fee_rate) := by nlinarith
        have h1 : d1 ≤ st.pm.cash / (ep * (1 + p.fee_rate)) := by
          rw [he]
          exact min_le_right _ _
        have h2 : d1 * (ep * (1 + p.fee_rate)) ≤ st.pm.cash := by
          have h3 := mul_le_mul_of_nonneg_right h1 hposM.le
          rwa [div_mul_cancel₀ _ (ne_of_gt hposM)] at h3
        nlinarith
      · have haff : aff = true := by
          revert hc
          cases aff <;> simp
        have hfund : st.pm.cash ≥ delta0 * ep * (1 + p.fee_rate) := by
          rw [haffd] at haff
          rw [can_afford_trade, if_neg (not_le.mpr hd0)] at haff
          exact of_decide_eq_true haff
        have he : d1 = delta0 := by
          rw [hd1d, if_neg (fun hcc => hc hcc.1)]
        rw [he]
        exact hfund
    exact execute_trade_cash_qty st.pm d1 ep p.fee_rate hf0 hf1 hcash hq hA hB

/-- One signal-handling step keeps cash and quantity nonnegative. -/
theorem process_signal_inv (p : EngineParams) (st : BacktestState) (i : ℤ)
    (row : BarRow) (s : StrategySignal)
    (hf0 : 0 ≤ p.fee_rate) (hf1 : p.fee_rate ≤ 1) (hsl : 0 ≤ p.slippage)
    (hm : 0 ≤ p.max_position) (hts : 0 ≤ s.target_position)
    (hrow : row.low ≤ row.high)
    (hcash : 0 ≤ st.pm.cash) (hq : 0 ≤ st.pm.current_qty) :
    0 ≤ (process_signal p st i row s).pm.cash ∧
    0 ≤ (process_signal p st i row s).pm.current_qty := by
  simp only [process_signal]
  split
  · exact ⟨hcash, hq⟩
  · split
    · exact ⟨hcash, hq⟩
    · have hnav : 0 ≤ get_nav st.pm row.close := get_nav_nonneg _ _ hcash hq
      have hts2 : 0 ≤ (risk_final_signal p st.pm row.close s).target_position :=
        risk_final_signal_target_nonneg p st.pm row.close s hts hm
      have hdge := calculate_trade_quantity_ge_neg_qty st.de
        (risk_final_signal p st.pm row.close s).target_position st.pm.current_qty
        row.close (get_nav st.pm row.close) hts2 hnav hq
      have hdpos := fun h => calculate_trade_quantity_pos_price st.de
        (risk_final_signal p st.pm row.close s).target_position st.pm.current_qty
        row.close (get_nav st.pm row.close) hq h
      exact settle_trade_inv p st i row _ _ hf0 hf1 hsl hrow hcash hq hdge hdpos

/-- One full bar keeps cash and quantity nonnegative. -/
theorem process_bar_inv (p : EngineParams) (signals : List StrategySignal)
    (st : BacktestState) (i : ℤ) (row : BarRow)
    (hf0 : 0 ≤ p.fee_rate) (hf1 : p.fee_rate ≤ 1) (hsl : 0 ≤ p.slippage)
    (hm : 0 ≤ p.max_position) (hsig : ∀ t ∈ signals, 0 ≤ t.target_position)
    (hrow : row.low ≤ row.high)
    (hcash : 0 ≤ st.pm.cash) (hq : 0 ≤ st.pm.current_qty) :
    0 ≤ (process_bar p signals st i row).pm.cash ∧
    0 ≤ (process_bar p signals st i row).pm.current_qty := by
  simp only [process_bar]
  cases hlk : signals_lookup signals row.datetime with
  | none => exact ⟨hcash, hq⟩
  | some s =>
    have hmem := signals_lookup_mem signals row.datetime s hlk
    exact process_signal_inv p
      { st with nav_list := st.nav_list ++ [get_nav st.pm row.close] } i row s
      hf0 hf1 hsl hm (hsig s hmem) hrow hcash hq

/-- The loop invariant: every intermediate state of `run_states` has
nonnegative cash and quantity. -/
theorem run_states_inv (p : EngineParams) (signals : List StrategySignal)
    (hf0 : 0 ≤ p.fee_rate) (hf1 : p.fee_rate ≤ 1) (hsl : 0 ≤ p.slippage)
    (hm : 0 ≤ p.max_position) (hsig : ∀ t ∈ signals, 0 ≤ t.target_position) :
    ∀ (bars : List BarRow) (st0 : BacktestState) (i : ℤ),
      (∀ b ∈ bars, b.low ≤ b.high) → 0 ≤ st0.pm.cash → 0 ≤ st0.pm.current_qty →
      ∀ st ∈ run_states p signals st0 i bars,
        0 ≤ st.pm.cash ∧ 0 ≤ st.pm.current_qty := by
  intro bars
  induction bars with
  | nil =>
    intro st0 i _ hc hq st hst
    simp only [run_states, List.mem_singleton] at hst
    subst hst
    exact ⟨hc, hq⟩
  | cons b bs ih =>
    intro st0 i hb hc hq st hst
    simp only [run_states, List.mem_cons] at hst
    rcases hst with rfl | hst
    · exact ⟨hc, hq⟩
    · have hbar := process_bar_inv p signals st0 i b hf0 hf1 hsl hm hsig
        (hb b (List.mem_cons_self b bs)) hc hq
      exact ih (process_bar p signals st0 i b) (i + 1)
        (fun x hx => hb x (List.mem_cons_of_mem b hx)) hbar.1 hbar.2 st hst

/-- C3: for every run of the loop (exact arithmetic), under the engine's
sanity constraints (0 ≤ fee_rate ≤ 1, nonnegative base slippage, nonnegative
max_position and initial capital, signal targets ≥ 0, bars with low ≤ high),
every intermediate state — in particular the state after every executed trade
— has cash ≥ -1e-9 and quantity ≥ -1e-9. -/
theorem C3_no_negative_state (p : EngineParams) (signals : List StrategySignal)
    (bars : List BarRow)
    (hf0 : 0 ≤ p.fee_rate) (hf1 : p.fee_rate ≤ 1) (hsl : 0 ≤ p.slippage)
    (hm : 0 ≤ p.max_position) (hcap : 0 ≤ p.initial_capital)
    (hsig : ∀ t ∈ signals, 0 ≤ t.target_position)
    (hbars : ∀ b ∈ bars, b.low ≤ b.high) :
    ∀ st ∈ run_states p signals (init_state p) 0 bars,
      -eps ≤ st.pm.cash ∧ -eps ≤ st.pm.current_qty := by
  intro st hst
  have h := run_states_inv p signals hf0 hf1 hsl hm hsig bars (init_state p) 0 hbars
    (by simpa [init_state, PositionManager.init] using hcap)
    (by simp [init_state, PositionManager.init]) st hst
  have heps : (0 : ℚ) < eps := by norm_num [eps]
  exact ⟨by linarith [h.1], by linarith [h.2]⟩

/-- C3 witness: the single-bar scenario satisfies every hypothesis, so all its
intermediate states have cash and quantity above `-1e-9`. -/
theorem C3_no_negative_state_witness :
    (∀ t ∈ [single_bar_signal], (0 : ℚ) ≤ t.target_position) ∧
    (∀ st ∈ run_states single_bar_params [single_bar_signal]
        (init_state single_bar_params) 0 [single_bar],
      -eps ≤ st.pm.cash ∧ -eps ≤ st.pm.current_qty) :=
  ⟨by norm_num [single_bar_signal],
   C3_no_negative_state single_bar_params [single_bar_signal] [single_bar]
     (by norm_num [single_bar_params, DEFAULT_BACKTEST_PARAMS])
     (by norm_num [single_bar_params, DEFAULT_BACKTEST_PARAMS])
     (by norm_num [single_bar_params, DEFAULT_BACKTEST_PARAMS])
     (by norm_num [single_bar_params, DEFAULT_BACKTEST_PARAMS])
     (by norm_num [single_bar_params, DEFAULT_BACKTEST_PARAMS])
     (by norm_num [single_bar_signal])
     (by norm_num [single_bar])⟩

end Backtest
